import Mathlib

/-!
# Verification of the bidirectional social-sync engine

Shallow embedding of the synchronization service (`SocialSyncService.js`)
and the worker entry point (`handleSync`) of the serverless-social-sync
repository, together with proofs of the specification claims.

Conventions of the embedding:
* JavaScript strings are Lean `String`s; most character-level processing
  works over `List Char` (`String.data`).
* Timestamps are modelled by their epoch-milliseconds value (`Int`):
  `new Date(a) <= new Date(b)` on valid dates is exactly `≤` on those values.
* A thrown JavaScript `Error` is a `JsError` value carried in `Except`.
* External effects (the authenticated fetches and the publish calls) are
  supplied as an explicit environment (`SyncWorld`): each effectful call
  site of the source maps to reading the corresponding field.
-/

/-! ## JavaScript string primitives used by the source -/

/-- The JavaScript whitespace set (`\s` in regular expressions and the set
trimmed by `String.prototype.trim`): tab, line feed, vertical tab, form feed,
carriage return, space, NBSP, the Unicode space separators, the line/paragraph
separators, and the BOM. -/
def isJsWhitespace (c : Char) : Bool :=
  c.val = 9 ∨ c.val = 10 ∨ c.val = 11 ∨ c.val = 12 ∨ c.val = 13 ∨ c.val = 32 ∨
  c.val = 0xa0 ∨ c.val = 0x1680 ∨ (0x2000 ≤ c.val ∧ c.val ≤ 0x200a) ∨
  c.val = 0x2028 ∨ c.val = 0x2029 ∨ c.val = 0x202f ∨ c.val = 0x205f ∨
  c.val = 0x3000 ∨ c.val = 0xfeff

/-- JavaScript line terminators: `.` in a regular expression (no `s` flag)
matches every character except these. -/
def isLineTerm (c : Char) : Bool :=
  c.val = 10 ∨ c.val = 13 ∨ c.val = 0x2028 ∨ c.val = 0x2029

/-- `needle.isPrefixOf hay`, written out for `List Char`. -/
def listStarts : List Char → List Char → Bool
  | [], _ => true
  | _ :: _, [] => false
  | n :: ns, c :: cs => n = c && listStarts ns cs

/-- `hay.includes(needle)` of JavaScript strings, on `List Char`. -/
def listIncludes (hay needle : List Char) : Bool :=
  match hay with
  | [] => listStarts needle []
  | _ :: cs => listStarts needle hay || listIncludes cs needle

/-- `a.includes(b)` on `String`. -/
def strIncludes (a b : String) : Bool :=
  listIncludes a.data b.data

/-- `String.prototype.trim`: drop JavaScript whitespace from both ends. -/
def trimJsList (cs : List Char) : List Char :=
  ((cs.dropWhile isJsWhitespace).reverse.dropWhile isJsWhitespace).reverse

/-- `s.trim()` on `String`. -/
def trimJs (s : String) : String :=
  ⟨trimJsList s.data⟩

/-- `s.toLowerCase()`: lowercase every character (the usernames compared by
the source are ASCII, where JavaScript case folding is `toLowerJs Char`). -/
def toLowerJs (s : String) : String :=
  ⟨s.data.map Char.toLower⟩

/-! ## The content normalizer `cleanMastodonContent`

Each of the five `String.replace(regex, …)` calls of the source becomes a
left-to-right scan (`replaceScan`) with a matcher for that regular
expression.  A global `replace` finds the leftmost match, substitutes, and
resumes immediately after the matched text, which is exactly what the scan
does. -/

/-- One global regex replacement pass, with fuel for structural recursion:
at each position try the matcher (which returns the replacement text and the
remaining input after the match); on failure keep the character and move on.
Every matcher below consumes at least one character, so at a real match the
remaining input fits in the remaining fuel and the guard is satisfied. -/
def replaceScanF (t : List Char → Option (List Char × List Char)) :
    Nat → List Char → List Char
  | 0, cs => cs
  | _ + 1, [] => []
  | f + 1, c :: cs =>
    match t (c :: cs) with
    | some (rep, rest) =>
      if rest.length ≤ f then rep ++ replaceScanF t f rest
      else c :: replaceScanF t f cs
    | none => c :: replaceScanF t f cs

/-- A global regex replacement (`String.replace(re, …)` with the `g` flag):
the scan with exactly enough fuel. -/
def replaceScan (t : List Char → Option (List Char × List Char))
    (cs : List Char) : List Char :=
  replaceScanF t cs.length cs

/-- After `<br` was consumed: `\s*\/?>` — whitespace, an optional slash, and
the closing angle bracket. -/
def brClose (cs : List Char) : Option (List Char) :=
  match cs.dropWhile isJsWhitespace with
  | '/' :: '>' :: rest => some rest
  | '>' :: rest => some rest
  | _ => none

/-- Matcher for `/<br\s*\/?>/gi`, replacement `'\n'`. -/
def tryMatchBr : List Char → Option (List Char × List Char)
  | [] => none
  | c :: cs =>
    if c = '<' then
      match cs with
      | b :: r :: rest =>
        if (b = 'b' || b = 'B') && (r = 'r' || r = 'R') then
          match brClose rest with
          | some rest' => some (['\n'], rest')
          | none => none
        else none
      | _ => none
    else none

/-- Recognize a closing tag `</x>` (case-insensitively in the letter) at the
head of the input, returning what follows it. -/
def closeTagAt (lo hi : Char) : List Char → Option (List Char)
  | a :: b :: c :: d :: rest =>
    if a = '<' && b = '/' && (c = lo || c = hi) && d = '>' then some rest
    else none
  | _ => none

/-- The lazy body `(.*?)<\/p>` (with `.` excluding line terminators): scan
for the earliest closing tag, collecting the body, failing at a line
terminator or the end of input. -/
def tagBody (lo hi : Char) : List Char → Option (List Char × List Char)
  | [] => none
  | c :: cs =>
    match closeTagAt lo hi (c :: cs) with
    | some rest => some ([], rest)
    | none =>
      if isLineTerm c then none
      else
        match tagBody lo hi cs with
        | some (body, rest) => some (c :: body, rest)
        | none => none

/-- Matcher for `/<p>(.*?)<\/p>/gi`, replacement `'$1\n\n'`. -/
def tryMatchP : List Char → Option (List Char × List Char)
  | [] => none
  | c :: cs =>
    if c = '<' then
      match cs with
      | p :: g :: rest =>
        if (p = 'p' || p = 'P') && g = '>' then
          match tagBody 'p' 'P' rest with
          | some (body, rest') => some (body ++ ['\n', '\n'], rest')
          | none => none
        else none
      | _ => none
    else none

/-- Greedy star over a character class followed by the continuation `k`:
the longest consumption is tried first, backtracking to shorter ones, which
is the JavaScript backtracking order for `[^>]*` etc. -/
def starThen (p : Char → Bool) (k : List Char → Option α) :
    List Char → Option α
  | [] => k []
  | c :: cs =>
    if p c then
      match starThen p k cs with
      | some r => some r
      | none => k (c :: cs)
    else k (c :: cs)

/-- Greedy capturing star over a character class: the continuation receives
the captured characters and the remaining input. -/
def starCapThen (p : Char → Bool) (k : List Char → List Char → Option α) :
    List Char → Option α
  | [] => k [] []
  | c :: cs =>
    if p c then
      match starCapThen p (fun cap rest => k (c :: cap) rest) cs with
      | some r => some r
      | none => k [] (c :: cs)
    else k [] (c :: cs)

/-- Case-insensitive literal: `lit` is given in lowercase and each input
character is lowercased before comparison. -/
def litCI (lit : List Char) (k : List Char → Option α) (cs : List Char) :
    Option α :=
  match lit, cs with
  | [], rest => k rest
  | _ :: _, [] => none
  | l :: ls, c :: cs' => if c.toLower = l then litCI ls k cs' else none

/-- The tail of the anchor pattern after `<a` was consumed:
`[^>]*href="([^"]*)"[^>]*>(.*?)<\/a>` with replacement `'$2 ($1)'`.
The nesting of the continuations reproduces the backtracking of the
JavaScript engine across the greedy pieces. -/
def matchATail (cs : List Char) : Option (List Char × List Char) :=
  starThen (fun c => ¬ c = '>')
    (litCI "href=\"".data
      (starCapThen (fun c => ¬ c = '"')
        (fun url rest1 =>
          match rest1 with
          | '"' :: rest2 =>
            starThen (fun c => ¬ c = '>')
              (fun rest3 =>
                match rest3 with
                | '>' :: rest4 =>
                  match tagBody 'a' 'A' rest4 with
                  | some (body, rest5) =>
                    some (body ++ ' ' :: '(' :: url ++ [')'], rest5)
                  | none => none
                | _ => none) rest2
          | _ => none)))
    cs

/-- Matcher for `/<a[^>]*href="([^"]*)"[^>]*>(.*?)<\/a>/gi`. -/
def tryMatchA : List Char → Option (List Char × List Char)
  | [] => none
  | c :: cs =>
    if c = '<' then
      match cs with
      | a :: rest => if a = 'a' || a = 'A' then matchATail rest else none
      | [] => none
    else none

/-- `[^>]*>`: skip to just past the first `>`. -/
def findGt : List Char → Option (List Char)
  | [] => none
  | c :: cs => if c = '>' then some cs else findGt cs

/-- Matcher for `/<[^>]*>/g`, replacement `''`. -/
def tryMatchTag : List Char → Option (List Char × List Char)
  | [] => none
  | c :: cs =>
    if c = '<' then
      match findGt cs with
      | some rest => some ([], rest)
      | none => none
    else none

/-- Matcher for `/\n{3,}/g`, replacement `'\n\n'`: three line feeds and then
greedily every further line feed. -/
def tryMatchNL : List Char → Option (List Char × List Char)
  | a :: b :: c :: rest =>
    if a = '\n' && b = '\n' && c = '\n' then
      some (['\n', '\n'], rest.dropWhile (fun d => d = '\n'))
    else none
  | _ => none

/-- `cleanMastodonContent(html)` of `SocialSyncService.js`: the five
replacement passes followed by `trim()`. -/
def cleanMastodonContent (html : String) : String :=
  let text := replaceScan tryMatchBr html.data
  let text := replaceScan tryMatchP text
  let text := replaceScan tryMatchA text
  let text := replaceScan tryMatchTag text
  let text := replaceScan tryMatchNL text
  ⟨trimJsList text⟩

/-! ## Errors and the rate-limit guard `withRateLimit` -/

/-- A thrown JavaScript `Error` as the source inspects it: the `message`
string and the optional numeric `status` property (absent on plain
errors). -/
structure JsError where
  message : String
  status : Option Int
deriving DecidableEq, Repr

/-- The retry condition of `withRateLimit`:
`error.message.includes('rate limit') || error.status === 429`. -/
def isRateLimitError (e : JsError) : Bool :=
  strIncludes e.message "rate limit" || e.status = some 429

/-- The loop of `withRateLimit(fn, retries)`.  `fn j` is the outcome of the
`j`-th invocation of the operation; `i` is the loop counter and the first
argument is the number of iterations left (`retries - i`, so the loop guard
`i < retries` is "the remaining count is nonzero"); `waits` collects the
backoff waits (in milliseconds) awaited so far, a wait of `2^i * 1000`
being recorded where the source awaits the backoff timer. -/
def withRateLimitGo (fn : Nat → Except JsError α) (retries : Nat) :
    Nat → Nat → List Nat → Except JsError α × List Nat
  | 0, _, waits =>
    (Except.error ⟨"Failed after " ++ toString retries ++ " retries", none⟩,
     waits)
  | r + 1, i, waits =>
    match fn i with
    | Except.ok a => (Except.ok a, waits)
    | Except.error e =>
      if isRateLimitError e then
        withRateLimitGo fn retries r (i + 1) (waits ++ [2 ^ i * 1000])
      else (Except.error e, waits)

/-- `withRateLimit(fn, retries)` of `SocialSyncService.js` (the source's
default for `retries` is `3`).  Returns the result (value or thrown error)
together with the list of backoff waits performed. -/
def withRateLimit (fn : Nat → Except JsError α) (retries : Nat) :
    Except JsError α × List Nat :=
  withRateLimitGo fn retries retries 0 []

/-! ## `parseInt` and the worker's configuration construction -/

/-- Value of a decimal or hexadecimal digit character. -/
def hexDigitVal (c : Char) : Nat :=
  if '0' ≤ c ∧ c ≤ '9' then c.toNat - '0'.toNat
  else if 'a' ≤ c ∧ c ≤ 'f' then c.toNat - 'a'.toNat + 10
  else if 'A' ≤ c ∧ c ≤ 'F' then c.toNat - 'A'.toNat + 10
  else 0

/-- Digit test for radix 10 or 16. -/
def isDigitBase (base : Nat) (c : Char) : Bool :=
  if base = 16 then
    ('0' ≤ c ∧ c ≤ '9') ∨ ('a' ≤ c ∧ c ≤ 'f') ∨ ('A' ≤ c ∧ c ≤ 'F')
  else
    '0' ≤ c ∧ c ≤ '9'

/-- JavaScript `parseInt(s)` with no radix argument: skip leading
whitespace, read an optional sign, switch to radix 16 after a `0x`/`0X`
prefix, then take the longest digit run; `none` models `NaN` (no digits). -/
def parseIntJs (s : String) : Option Int :=
  let cs := s.data.dropWhile isJsWhitespace
  let signAndRest : Bool × List Char :=
    match cs with
    | '-' :: rest => (true, rest)
    | '+' :: rest => (false, rest)
    | _ => (false, cs)
  let neg := signAndRest.1
  let cs1 := signAndRest.2
  let baseAndRest : Nat × List Char :=
    match cs1 with
    | '0' :: x :: rest =>
      if x = 'x' || x = 'X' then (16, rest) else (10, cs1)
    | _ => (10, cs1)
  let base := baseAndRest.1
  let ds := baseAndRest.2.takeWhile (isDigitBase base)
  if ds.isEmpty then none
  else
    let n : Nat := ds.foldl (fun acc c => acc * base + hexDigitVal c) 0
    some (if neg then -(n : Int) else (n : Int))

/-- `parseInt(env.POSTS_TO_SYNC) || 10` of the worker's `handleSync`:
an absent variable, `NaN`, and `0` are falsy and fall back to `10`. -/
def postsToSyncOf (v : Option String) : Int :=
  match v with
  | none => 10
  | some s =>
    match parseIntJs s with
    | none => 10
    | some n => if n = 0 then 10 else n

/-- Epoch-milliseconds value of a timestamp (see the file header). -/
abbrev Timestamp := Int

/-- `await env.SYNC_STORE.get('lastSync') || env.LAST_SYNC || null`:
the stored watermark, else the static fallback variable, else null. -/
def lastSyncOf (stored fallback : Option Timestamp) : Option Timestamp :=
  match stored with
  | some t => some t
  | none => fallback

/-! ## Data model of the service -/

/-- The two platforms, the `source` tag of a `SyncedPost`. -/
inductive Platform where
  | bluesky
  | mastodon
deriving DecidableEq, Repr

/-- `SyncConfig`: the configuration object handed to the service
constructor. -/
structure SyncConfig where
  debug : Bool
  postsToSync : Int
  ignoreReposts : Bool
  lastSync : Option Timestamp
  mastodonUrl : String
  mastodonUsername : String
  mastodonAccessToken : String
  blueskyUsername : String
  blueskyPassword : String
  dryRun : Bool
deriving DecidableEq, Repr

/-- The fields of the service object set by the constructor of
`SocialSyncService`. -/
structure SocialSyncService where
  config : SyncConfig
  debug : Bool
  postsToSync : Int
  ignoreReposts : Bool
  lastSync : Option Timestamp
  dryRun : Bool
deriving DecidableEq, Repr

/-- `new SocialSyncService(config)`: copies the configuration fields onto
the instance; `dryRun` is `config.dryRun || false`. -/
def mkService (config : SyncConfig) : SocialSyncService :=
  { config := config
    debug := config.debug
    postsToSync := config.postsToSync
    ignoreReposts := config.ignoreReposts
    lastSync := config.lastSync
    dryRun := config.dryRun || false }

/-- One item of the Bluesky author feed as the source reads it:
`post.post.uri`, `post.post.indexedAt`, the truthiness of
`post.post.record.reply`, and `post.post.record.text`. -/
structure BskyFeedItem where
  uri : String
  indexedAt : Timestamp
  reply : Bool
  text : String
deriving DecidableEq, Repr

/-- One Mastodon timeline status as the source reads it: `post.id`,
`post.created_at`, the truthiness of `post.reblog`,
`post.account.username`, and `post.content`. -/
structure MastoStatus where
  id : String
  createdAt : Timestamp
  reblog : Bool
  username : String
  content : String
deriving DecidableEq, Repr

/-- `SyncedPost`: the record appended to a direction's result list. -/
structure SyncedPost where
  source : Platform
  sourceId : String
  targetId : String
  text : String
  simulated : Bool
  timestamp : Timestamp
deriving DecidableEq, Repr

/-- `SyncResults`: the value returned by `sync()`. -/
structure SyncResults where
  timestamp : Timestamp
  blueskyToMastodon : List SyncedPost
  mastodonToBluesky : List SyncedPost
  dryRun : Bool
deriving DecidableEq, Repr

/-- The external world of one pass: the outcome of `initialize()`, the two
rate-limited fetches, the outcome of each (rate-limited) publish call, and
the value of `new Date()` taken at the start of `sync()`. -/
structure SyncWorld where
  initOk : Except JsError Unit
  bskyFeed : Except JsError (List BskyFeedItem)
  mastoTimeline : Except JsError (List MastoStatus)
  publishMasto : BskyFeedItem → Except JsError String
  publishBsky : MastoStatus → Except JsError String
  now : Timestamp

/-! ## The two sync directions -/

/-- `this.lastSync && new Date(t) <= new Date(this.lastSync)`: the
watermark skip test. -/
def skipOld (lastSync : Option Timestamp) (t : Timestamp) : Bool :=
  match lastSync with
  | some ls => decide (t ≤ ls)
  | none => false

/-- The body of the `syncFromBluesky` loop for one feed item, inside its
`try`/`catch`: `none` is a `continue` (either a filter skip or a caught
per-post error), `some` is the record pushed onto `syncedPosts`. -/
def processBskyPost (s : SocialSyncService)
    (publish : BskyFeedItem → Except JsError String) (post : BskyFeedItem) :
    Option SyncedPost :=
  if skipOld s.lastSync post.indexedAt then none
  else if s.ignoreReposts && post.reply then none
  else
    let text := post.text
    if s.dryRun then
      some { source := Platform.bluesky, sourceId := post.uri,
             targetId := "DRY_RUN", text := text, simulated := s.dryRun,
             timestamp := post.indexedAt }
    else
      match publish post with
      | Except.ok mastoId =>
        some { source := Platform.bluesky, sourceId := post.uri,
               targetId := mastoId, text := text, simulated := s.dryRun,
               timestamp := post.indexedAt }
      | Except.error _ => none

/-- The `syncFromBluesky` loop over the fetched feed. -/
def bskyLoop (s : SocialSyncService)
    (publish : BskyFeedItem → Except JsError String)
    (feed : List BskyFeedItem) : List SyncedPost :=
  feed.filterMap (processBskyPost s publish)

/-- `syncFromBluesky()`: the rate-limited `getAuthorFeed` (its outcome is
`w.bskyFeed`; a failure there propagates), then the loop. -/
def syncFromBluesky (s : SocialSyncService) (w : SyncWorld) :
    Except JsError (List SyncedPost) :=
  match w.bskyFeed with
  | Except.error e => Except.error e
  | Except.ok feed => Except.ok (bskyLoop s w.publishMasto feed)

/-- The body of the `syncFromMastodon` loop for one timeline status, inside
its `try`/`catch`. -/
def processMastoPost (s : SocialSyncService)
    (publish : MastoStatus → Except JsError String) (post : MastoStatus) :
    Option SyncedPost :=
  if skipOld s.lastSync post.createdAt then none
  else if s.ignoreReposts && post.reblog then none
  else if ¬ (toLowerJs post.username = toLowerJs s.config.mastodonUsername) then
    none
  else
    let text := cleanMastodonContent post.content
    if s.dryRun then
      some { source := Platform.mastodon, sourceId := post.id,
             targetId := "DRY_RUN", text := text, simulated := s.dryRun,
             timestamp := post.createdAt }
    else
      match publish post with
      | Except.ok bskyUri =>
        some { source := Platform.mastodon, sourceId := post.id,
               targetId := bskyUri, text := text, simulated := s.dryRun,
               timestamp := post.createdAt }
      | Except.error _ => none

/-- The `syncFromMastodon` loop over the fetched timeline. -/
def mastoLoop (s : SocialSyncService)
    (publish : MastoStatus → Except JsError String)
    (timeline : List MastoStatus) : List SyncedPost :=
  timeline.filterMap (processMastoPost s publish)

/-- `syncFromMastodon()`: the rate-limited timeline fetch, then the loop. -/
def syncFromMastodon (s : SocialSyncService) (w : SyncWorld) :
    Except JsError (List SyncedPost) :=
  match w.mastoTimeline with
  | Except.error e => Except.error e
  | Except.ok timeline => Except.ok (mastoLoop s w.publishBsky timeline)

/-- `sync()`: initialize, run both directions, assemble `SyncResults`;
any failure of those steps propagates to the caller. -/
def sync (s : SocialSyncService) (w : SyncWorld) :
    Except JsError SyncResults :=
  match w.initOk with
  | Except.error e => Except.error e
  | Except.ok _ =>
    match syncFromBluesky s w with
    | Except.error e => Except.error e
    | Except.ok aToB =>
      match syncFromMastodon s w with
      | Except.error e => Except.error e
      | Except.ok bToA =>
        Except.ok { timestamp := w.now, blueskyToMastodon := aToB,
                    mastodonToBluesky := bToA, dryRun := s.dryRun }

/-! ## The worker entry point `handleSync` -/

/-- The environment bindings of the worker that feed the configuration
(the string variables may be unset). -/
structure WorkerEnv where
  DEBUG : Option String
  POSTS_TO_SYNC : Option String
  IGNORE_REPOSTS : Option String
  DRY_RUN : Option String
  LAST_SYNC : Option Timestamp
  MASTODON_URL : String
  MASTODON_USERNAME : String
  MASTODON_ACCESS_TOKEN : String
  BLUESKY_USERNAME : String
  BLUESKY_PASSWORD : String

/-- The `config` object built at the top of `handleSync`; `stored` is the
value of `await env.SYNC_STORE.get('lastSync')`. -/
def configOf (env : WorkerEnv) (stored : Option Timestamp) : SyncConfig :=
  { debug := env.DEBUG = some "true"
    postsToSync := postsToSyncOf env.POSTS_TO_SYNC
    ignoreReposts := env.IGNORE_REPOSTS = some "true"
    dryRun := env.DRY_RUN = some "true"
    lastSync := lastSyncOf stored env.LAST_SYNC
    mastodonUrl := env.MASTODON_URL
    mastodonUsername := env.MASTODON_USERNAME
    mastodonAccessToken := env.MASTODON_ACCESS_TOKEN
    blueskyUsername := env.BLUESKY_USERNAME
    blueskyPassword := env.BLUESKY_PASSWORD }

/-- The per-direction counts of the success report. -/
structure SyncStats where
  blueskyToMastodon : Nat
  mastodonToBluesky : Nat
deriving DecidableEq, Repr

/-- The JSON report returned by `handleSync` (the fields absent in one of
the two branches are `Option`s). -/
structure WorkerReport where
  success : Bool
  dryRun : Bool
  timestamp : Option Timestamp
  stats : Option SyncStats
  error : Option String
deriving DecidableEq, Repr

/-- `handleSync(env)` of the worker: build the configuration, run
`sync()`, and on success of a non-dry run write the watermark.  The second
component collects the `SYNC_STORE.put('lastSync', …)` calls performed, so
"the watermark is written" is "that list is nonempty". -/
def handleSync (env : WorkerEnv) (stored : Option Timestamp)
    (w : SyncWorld) : WorkerReport × List Timestamp :=
  let config := configOf env stored
  let syncService := mkService config
  match sync syncService w with
  | Except.ok results =>
    ({ success := true, dryRun := config.dryRun,
       timestamp := some results.timestamp,
       stats := some { blueskyToMastodon := results.blueskyToMastodon.length,
                       mastodonToBluesky := results.mastodonToBluesky.length }
       error := none },
     if ¬ config.dryRun then [results.timestamp] else [])
  | Except.error e =>
    ({ success := false, dryRun := config.dryRun, timestamp := none,
       stats := none, error := some e.message }, [])

/-- `hasTripleNL cs` holds when `cs` contains three consecutive line
feeds (a match site of `/\n{3,}/`). -/
def hasTripleNL : List Char → Bool
  | [] => false
  | c :: cs => listStarts ['\n', '\n', '\n'] (c :: cs) || hasTripleNL cs
/-! ## Concrete fixtures for the witnesses and counterexamples -/

/-- A live (non-simulated) configuration. -/
def liveConfig : SyncConfig :=
  { debug := false, postsToSync := 10, ignoreReposts := true,
    lastSync := some 100, mastodonUrl := "https://hachyderm.io",
    mastodonUsername := "jerdog", mastodonAccessToken := "token",
    blueskyUsername := "jerdog.dev", blueskyPassword := "pw",
    dryRun := false }

def liveService : SocialSyncService := mkService liveConfig

/-- A dry-run configuration with no watermark and reposts allowed. -/
def dryConfig : SyncConfig :=
  { liveConfig with
    dryRun := true
    ignoreReposts := false
    lastSync := none }

def dryService : SocialSyncService := mkService dryConfig

def b1 : BskyFeedItem :=
  { uri := "at://1", indexedAt := 200, reply := false, text := "one" }

def b2 : BskyFeedItem :=
  { uri := "at://2", indexedAt := 300, reply := false, text := "two" }

def b3 : BskyFeedItem :=
  { uri := "at://3", indexedAt := 400, reply := false, text := "three" }

def m1 : MastoStatus :=
  { id := "109", createdAt := 500, reblog := false, username := "jerdog",
    content := "hello" }

/-- Author name differing from the configured `jerdog` only in case. -/
def mCased : MastoStatus :=
  { id := "110", createdAt := 600, reblog := false, username := "JerDog",
    content := "hello" }

/-- Author name differing from the configured `jerdog` outright. -/
def mOther : MastoStatus :=
  { id := "111", createdAt := 700, reblog := false, username := "alice",
    content := "hi" }

/-- Author name in capitals, for the case-insensitivity witness. -/
def mUpper : MastoStatus :=
  { id := "112", createdAt := 800, reblog := false, username := "JERDOG",
    content := "yo" }

def okPub : BskyFeedItem → Except JsError String :=
  fun p => Except.ok ("m-" ++ p.uri)

def okPubM : MastoStatus → Except JsError String :=
  fun q => Except.ok ("at://did/app.bsky.feed.post/" ++ q.id)

/-- Publishing fails exactly for the second fixture post. -/
def failSecond : BskyFeedItem → Except JsError String :=
  fun p =>
    if p.uri = "at://2" then Except.error ⟨"PublishError", none⟩
    else Except.ok ("m-" ++ p.uri)

/-- A world in which both fetches succeed and the second Bluesky post
fails to publish. -/
def liveWorld : SyncWorld :=
  { initOk := Except.ok (), bskyFeed := Except.ok [b1, b2, b3],
    mastoTimeline := Except.ok [m1], publishMasto := failSecond,
    publishBsky := okPubM, now := 1000 }

/-- Worker environment matching `liveConfig`. -/
def liveEnv : WorkerEnv :=
  { DEBUG := none, POSTS_TO_SYNC := some "10",
    IGNORE_REPOSTS := some "true", DRY_RUN := none, LAST_SYNC := some 100,
    MASTODON_URL := "https://hachyderm.io", MASTODON_USERNAME := "jerdog",
    MASTODON_ACCESS_TOKEN := "token", BLUESKY_USERNAME := "jerdog.dev",
    BLUESKY_PASSWORD := "pw" }

/-- Worker environment with a negative `POSTS_TO_SYNC`. -/
def negEnv : WorkerEnv :=
  { liveEnv with POSTS_TO_SYNC := some "-5" }

/-- Worker environment with a non-numeric `POSTS_TO_SYNC`. -/
def nanEnv : WorkerEnv :=
  { liveEnv with POSTS_TO_SYNC := some "abc" }

/-- A simulated world for the dry-run witness. -/
def dryWorld : SyncWorld :=
  { initOk := Except.ok (), bskyFeed := Except.ok [b1, b2, b3],
    mastoTimeline := Except.ok [m1, mCased], publishMasto := okPub,
    publishBsky := okPubM, now := 2000 }

/-- An operation that is rate-limited twice and then succeeds. -/
def fn429 : Nat → Except JsError String := fun i =>
  if i < 2 then Except.error ⟨"rate limit exceeded", some 429⟩
  else Except.ok "ok-id"
/-! ## Characterization of the per-post processing -/

/-- `processBskyPost` returns `some sp` exactly when the two filters pass
and either the run is simulated or the publish call succeeded. -/
theorem processBskyPost_some_iff (s : SocialSyncService)
    (pub : BskyFeedItem → Except JsError String) (p : BskyFeedItem)
    (sp : SyncedPost) :
    processBskyPost s pub p = some sp ↔
      skipOld s.lastSync p.indexedAt = false ∧
      (s.ignoreReposts && p.reply) = false ∧
      ((s.dryRun = true ∧
          sp = { source := Platform.bluesky, sourceId := p.uri,
                 targetId := "DRY_RUN", text := p.text, simulated := true,
                 timestamp := p.indexedAt }) ∨
        (s.dryRun = false ∧ ∃ mastoId, pub p = Except.ok mastoId ∧
          sp = { source := Platform.bluesky, sourceId := p.uri,
                 targetId := mastoId, text := p.text, simulated := false,
                 timestamp := p.indexedAt })) := by
  unfold processBskyPost
  cases h1 : skipOld s.lastSync p.indexedAt <;>
    cases h2 : s.ignoreReposts && p.reply <;>
      cases h3 : s.dryRun <;>
        simp [h1, h2, h3]
  · cases h4 : pub p <;> simp [h4, eq_comm]
  · exact eq_comm

/-- `processMastoPost` returns `some sp` exactly when the three filters
pass and either the run is simulated or the publish call succeeded. -/
theorem processMastoPost_some_iff (s : SocialSyncService)
    (pub : MastoStatus → Except JsError String) (p : MastoStatus)
    (sp : SyncedPost) :
    processMastoPost s pub p = some sp ↔
      skipOld s.lastSync p.createdAt = false ∧
      (s.ignoreReposts && p.reblog) = false ∧
      toLowerJs p.username = toLowerJs s.config.mastodonUsername ∧
      ((s.dryRun = true ∧
          sp = { source := Platform.mastodon, sourceId := p.id,
                 targetId := "DRY_RUN",
                 text := cleanMastodonContent p.content, simulated := true,
                 timestamp := p.createdAt }) ∨
        (s.dryRun = false ∧ ∃ bskyUri, pub p = Except.ok bskyUri ∧
          sp = { source := Platform.mastodon, sourceId := p.id,
                 targetId := bskyUri,
                 text := cleanMastodonContent p.content, simulated := false,
                 timestamp := p.createdAt })) := by
  unfold processMastoPost
  cases h1 : skipOld s.lastSync p.createdAt <;>
    cases h2 : s.ignoreReposts && p.reblog <;>
      by_cases h3 : toLowerJs p.username = toLowerJs s.config.mastodonUsername <;>
        cases h4 : s.dryRun <;>
          simp [h1, h2, h3, h4]
  · cases h5 : pub p <;> simp [h5, eq_comm]
  · exact eq_comm
/-! ## Plain text is a fixed point of the tag-replacement passes -/

/-- A matcher that can only fire at `'<'` never fires on a string without
`'<'`, so its replacement pass is the identity there. -/
theorem replaceScanF_id_of_no_lt
    (t : List Char → Option (List Char × List Char))
    (ht : ∀ c ds, ¬ c = '<' → t (c :: ds) = none) :
    ∀ (f : Nat) (cs : List Char), cs.any (fun c => c = '<') = false →
      replaceScanF t f cs = cs := by
  intro f
  induction f with
  | zero => intro cs _; rfl
  | succ f ih =>
    intro cs h
    cases cs with
    | nil => rfl
    | cons c cs' =>
      simp only [List.any_cons, Bool.or_eq_false_iff] at h
      have hc : ¬ c = '<' := by simpa using h.1
      rw [replaceScanF, ht c cs' hc, ih cs' h.2]

theorem tryMatchBr_no_lt (c : Char) (ds : List Char) (h : ¬ c = '<') :
    tryMatchBr (c :: ds) = none := by
  unfold tryMatchBr; simp [h]

theorem tryMatchP_no_lt (c : Char) (ds : List Char) (h : ¬ c = '<') :
    tryMatchP (c :: ds) = none := by
  unfold tryMatchP; simp [h]

theorem tryMatchA_no_lt (c : Char) (ds : List Char) (h : ¬ c = '<') :
    tryMatchA (c :: ds) = none := by
  unfold tryMatchA; simp [h]

theorem tryMatchTag_no_lt (c : Char) (ds : List Char) (h : ¬ c = '<') :
    tryMatchTag (c :: ds) = none := by
  unfold tryMatchTag; simp [h]

/-- The newline-collapse matcher fires only at three consecutive line
feeds. -/
theorem tryMatchNL_none (cs : List Char)
    (h : listStarts ['\n', '\n', '\n'] cs = false) :
    tryMatchNL cs = none := by
  match cs with
  | [] => rfl
  | [a] => rfl
  | [a, b] => rfl
  | a :: b :: c :: rest =>
    unfold tryMatchNL
    by_cases ha : a = '\n'
    · by_cases hb : b = '\n'
      · by_cases hc : c = '\n'
        · subst ha; subst hb; subst hc; simp [listStarts] at h
        · simp [hc]
      · simp [hb]
    · simp [ha]

/-- Without three consecutive line feeds the newline-collapse pass is the
identity. -/
theorem replaceScanF_id_of_no_triple :
    ∀ (f : Nat) (cs : List Char), hasTripleNL cs = false →
      replaceScanF tryMatchNL f cs = cs := by
  intro f
  induction f with
  | zero => intro cs _; rfl
  | succ f ih =>
    intro cs h
    cases cs with
    | nil => rfl
    | cons c cs' =>
      rw [hasTripleNL, Bool.or_eq_false_iff] at h
      rw [replaceScanF, tryMatchNL_none _ h.1, ih cs' h.2]
/-- Claim C1: when `dryRun` is true no publish capability is ever invoked
(the direction results do not depend on the publish functions at all) and
every `SyncedPost` produced by `syncFromBluesky` or `syncFromMastodon`
carries the simulation sentinel `DRY_RUN` and `simulated = true`; when
`dryRun` is false and the publish succeeds, `targetId` is exactly the
identifier the adapter's publish call returned and `simulated = false`. -/
theorem dryRun_simulation_spec (s : SocialSyncService) (w : SyncWorld)
    (pub pub' : BskyFeedItem → Except JsError String)
    (pubM pubM' : MastoStatus → Except JsError String)
    (feed : List BskyFeedItem) (timeline : List MastoStatus) :
    (s.dryRun = true →
      bskyLoop s pub feed = bskyLoop s pub' feed ∧
      mastoLoop s pubM timeline = mastoLoop s pubM' timeline ∧
      (∀ l, syncFromBluesky s w = Except.ok l →
        ∀ sp ∈ l, sp.targetId = "DRY_RUN" ∧ sp.simulated = true) ∧
      (∀ l, syncFromMastodon s w = Except.ok l →
        ∀ sp ∈ l, sp.targetId = "DRY_RUN" ∧ sp.simulated = true)) ∧
    (s.dryRun = false →
      (∀ fd l, w.bskyFeed = Except.ok fd →
        syncFromBluesky s w = Except.ok l →
        ∀ sp ∈ l, ∃ p, p ∈ fd ∧ w.publishMasto p = Except.ok sp.targetId ∧
          sp.simulated = false) ∧
      (∀ tl l, w.mastoTimeline = Except.ok tl →
        syncFromMastodon s w = Except.ok l →
        ∀ sp ∈ l, ∃ q, q ∈ tl ∧ w.publishBsky q = Except.ok sp.targetId ∧
          sp.simulated = false)) := by
  have hbdry : ∀ (pb : BskyFeedItem → Except JsError String)
      (fd : List BskyFeedItem), s.dryRun = true →
      ∀ sp ∈ bskyLoop s pb fd,
        sp.targetId = "DRY_RUN" ∧ sp.simulated = true := by
    intro pb fd hdry sp hsp
    rw [bskyLoop, List.mem_filterMap] at hsp
    obtain ⟨p, _, hproc⟩ := hsp
    rcases (processBskyPost_some_iff s pb p sp).mp hproc with
      ⟨_, _, ⟨_, hsp⟩ | ⟨hfalse, _⟩⟩
    · subst hsp; exact ⟨rfl, rfl⟩
    · rw [hdry] at hfalse; cases hfalse
  have hmdry : ∀ (pb : MastoStatus → Except JsError String)
      (tl : List MastoStatus), s.dryRun = true →
      ∀ sp ∈ mastoLoop s pb tl,
        sp.targetId = "DRY_RUN" ∧ sp.simulated = true := by
    intro pb tl hdry sp hsp
    rw [mastoLoop, List.mem_filterMap] at hsp
    obtain ⟨q, _, hproc⟩ := hsp
    rcases (processMastoPost_some_iff s pb q sp).mp hproc with
      ⟨_, _, _, ⟨_, hsp⟩ | ⟨hfalse, _⟩⟩
    · subst hsp; exact ⟨rfl, rfl⟩
    · rw [hdry] at hfalse; cases hfalse
  have hblive : ∀ (pb : BskyFeedItem → Except JsError String)
      (fd : List BskyFeedItem), s.dryRun = false →
      ∀ sp ∈ bskyLoop s pb fd,
        ∃ p, p ∈ fd ∧ pb p = Except.ok sp.targetId ∧
          sp.simulated = false := by
    intro pb fd hlive sp hsp
    rw [bskyLoop, List.mem_filterMap] at hsp
    obtain ⟨p, hmem, hproc⟩ := hsp
    rcases (processBskyPost_some_iff s pb p sp).mp hproc with
      ⟨_, _, ⟨htrue, _⟩ | ⟨_, mastoId, hok, hsp⟩⟩
    · rw [hlive] at htrue; cases htrue
    · subst hsp; exact ⟨p, hmem, hok, rfl⟩
  have hmlive : ∀ (pb : MastoStatus → Except JsError String)
      (tl : List MastoStatus), s.dryRun = false →
      ∀ sp ∈ mastoLoop s pb tl,
        ∃ q, q ∈ tl ∧ pb q = Except.ok sp.targetId ∧
          sp.simulated = false := by
    intro pb tl hlive sp hsp
    rw [mastoLoop, List.mem_filterMap] at hsp
    obtain ⟨q, hmem, hproc⟩ := hsp
    rcases (processMastoPost_some_iff s pb q sp).mp hproc with
      ⟨_, _, _, ⟨htrue, _⟩ | ⟨_, bskyUri, hok, hsp⟩⟩
    · rw [hlive] at htrue; cases htrue
    · subst hsp; exact ⟨q, hmem, hok, rfl⟩
  constructor
  · intro hdry
    have hb : processBskyPost s pub = processBskyPost s pub' := by
      funext p; unfold processBskyPost; simp [hdry]
    have hm : processMastoPost s pubM = processMastoPost s pubM' := by
      funext q; unfold processMastoPost; simp [hdry]
    refine ⟨by rw [bskyLoop, bskyLoop, hb],
      by rw [mastoLoop, mastoLoop, hm], ?_, ?_⟩
    · intro l hl
      cases hw : w.bskyFeed with
      | error e => rw [syncFromBluesky, hw] at hl; cases hl
      | ok fd =>
        rw [syncFromBluesky, hw] at hl
        injection hl with hl
        subst hl
        exact hbdry _ fd hdry
    · intro l hl
      cases hw : w.mastoTimeline with
      | error e => rw [syncFromMastodon, hw] at hl; cases hl
      | ok tl =>
        rw [syncFromMastodon, hw] at hl
        injection hl with hl
        subst hl
        exact hmdry _ tl hdry
  · intro hlive
    constructor
    · intro fd l hw hl
      rw [syncFromBluesky, hw] at hl
      injection hl with hl
      subst hl
      exact hblive _ fd hlive
    · intro tl l hw hl
      rw [syncFromMastodon, hw] at hl
      injection hl with hl
      subst hl
      exact hmlive _ tl hlive
/-- Witness for C1 at the dry-run fixture service and world. -/
theorem dryRun_simulation_witness :
    dryService.dryRun = true ∧
    (∀ l, syncFromMastodon dryService dryWorld = Except.ok l →
      ∀ sp ∈ l, sp.targetId = "DRY_RUN" ∧ sp.simulated = true) :=
  ⟨rfl,
    ((dryRun_simulation_spec dryService dryWorld okPub okPub okPubM okPubM
      [b1] [m1]).1 rfl).2.2.2⟩
/-- Claim C2: with the watermark `lastSync` set, a post whose timestamp is
less than or equal to the watermark is skipped by both directions, and
consequently every record in either direction's output has a timestamp
strictly newer than the watermark. -/
theorem watermark_filter_spec (s : SocialSyncService)
    (pub : BskyFeedItem → Except JsError String)
    (pubM : MastoStatus → Except JsError String)
    (feed : List BskyFeedItem) (timeline : List MastoStatus)
    (ls : Timestamp) (h : s.lastSync = some ls) :
    (∀ p : BskyFeedItem, p.indexedAt ≤ ls →
      processBskyPost s pub p = none) ∧
    (∀ q : MastoStatus, q.createdAt ≤ ls →
      processMastoPost s pubM q = none) ∧
    (∀ sp ∈ bskyLoop s pub feed, ¬ (sp.timestamp ≤ ls)) ∧
    (∀ sp ∈ mastoLoop s pubM timeline, ¬ (sp.timestamp ≤ ls)) := by
  have hskipB : ∀ t : Timestamp, t ≤ ls → skipOld s.lastSync t = true := by
    intro t ht; rw [skipOld.eq_def, h]; simpa using ht
  refine ⟨?_, ?_, ?_, ?_⟩
  · intro p hp; unfold processBskyPost; rw [hskipB _ hp]; rfl
  · intro q hq; unfold processMastoPost; rw [hskipB _ hq]; rfl
  · intro sp hsp
    rw [bskyLoop, List.mem_filterMap] at hsp
    obtain ⟨p, _, hproc⟩ := hsp
    obtain ⟨hskip, -, hcase⟩ := (processBskyPost_some_iff s pub p sp).mp hproc
    have htime : sp.timestamp = p.indexedAt := by
      rcases hcase with ⟨_, hsp⟩ | ⟨_, _, _, hsp⟩ <;> subst hsp <;> rfl
    rw [htime]
    intro hle
    rw [hskipB _ hle] at hskip
    cases hskip
  · intro sp hsp
    rw [mastoLoop, List.mem_filterMap] at hsp
    obtain ⟨q, _, hproc⟩ := hsp
    obtain ⟨hskip, -, -, hcase⟩ := (processMastoPost_some_iff s pubM q sp).mp hproc
    have htime : sp.timestamp = q.createdAt := by
      rcases hcase with ⟨_, hsp⟩ | ⟨_, _, _, hsp⟩ <;> subst hsp <;> rfl
    rw [htime]
    intro hle
    rw [hskipB _ hle] at hskip
    cases hskip
/-- Witness for C2 at the live fixture service (watermark 100). -/
theorem watermark_filter_witness :
    liveService.lastSync = some 100 ∧
    (∀ p : BskyFeedItem, p.indexedAt ≤ 100 →
      processBskyPost liveService okPub p = none) :=
  ⟨rfl,
    (watermark_filter_spec liveService okPub okPubM [b1] [m1] 100 rfl).1⟩
/-- Claim C3: with `ignoreReposts` true, a post marked as a reply (Bluesky)
or a reblog (Mastodon) is skipped and every output record originates from
an unmarked post; with `ignoreReposts` false, a marked post that passes the
other filters (and whose publish succeeds, or a dry run) does appear in the
output. -/
theorem repost_filter_spec (s : SocialSyncService)
    (pub : BskyFeedItem → Except JsError String)
    (pubM : MastoStatus → Except JsError String)
    (feed : List BskyFeedItem) (timeline : List MastoStatus) :
    (s.ignoreReposts = true →
      (∀ p : BskyFeedItem, p.reply = true →
        processBskyPost s pub p = none) ∧
      (∀ q : MastoStatus, q.reblog = true →
        processMastoPost s pubM q = none) ∧
      (∀ sp ∈ bskyLoop s pub feed, ∃ p, p ∈ feed ∧
        processBskyPost s pub p = some sp ∧ p.reply = false) ∧
      (∀ sp ∈ mastoLoop s pubM timeline, ∃ q, q ∈ timeline ∧
        processMastoPost s pubM q = some sp ∧ q.reblog = false)) ∧
    (s.ignoreReposts = false →
      (∀ p ∈ feed, p.reply = true →
        skipOld s.lastSync p.indexedAt = false →
        (s.dryRun = true ∨ ∃ mastoId, pub p = Except.ok mastoId) →
        ∃ sp, processBskyPost s pub p = some sp ∧
          sp ∈ bskyLoop s pub feed) ∧
      (∀ q ∈ timeline, q.reblog = true →
        skipOld s.lastSync q.createdAt = false →
        toLowerJs q.username = toLowerJs s.config.mastodonUsername →
        (s.dryRun = true ∨ ∃ bskyUri, pubM q = Except.ok bskyUri) →
        ∃ sp, processMastoPost s pubM q = some sp ∧
          sp ∈ mastoLoop s pubM timeline)) := by
  constructor
  · intro hir
    refine ⟨?_, ?_, ?_, ?_⟩
    · intro p hp; unfold processBskyPost; simp [hir, hp]
    · intro q hq; unfold processMastoPost; simp [hir, hq]
    · intro sp hsp
      rw [bskyLoop, List.mem_filterMap] at hsp
      obtain ⟨p, hmem, hproc⟩ := hsp
      obtain ⟨-, hmark, -⟩ := (processBskyPost_some_iff s pub p sp).mp hproc
      rw [hir, Bool.true_and] at hmark
      exact ⟨p, hmem, hproc, hmark⟩
    · intro sp hsp
      rw [mastoLoop, List.mem_filterMap] at hsp
      obtain ⟨q, hmem, hproc⟩ := hsp
      obtain ⟨-, hmark, -⟩ := (processMastoPost_some_iff s pubM q sp).mp hproc
      rw [hir, Bool.true_and] at hmark
      exact ⟨q, hmem, hproc, hmark⟩
  · intro hir
    constructor
    · intro p hmem _ hskip hpub
      have hmark : (s.ignoreReposts && p.reply) = false := by
        rw [hir]; rfl
      rcases hpub with hdry | ⟨mastoId, hok⟩
      · refine ⟨_, (processBskyPost_some_iff s pub p _).mpr
          ⟨hskip, hmark, Or.inl ⟨hdry, rfl⟩⟩, ?_⟩
        rw [bskyLoop, List.mem_filterMap]
        exact ⟨p, hmem, (processBskyPost_some_iff s pub p _).mpr
          ⟨hskip, hmark, Or.inl ⟨hdry, rfl⟩⟩⟩
      · by_cases hdry : s.dryRun = true
        · refine ⟨_, (processBskyPost_some_iff s pub p _).mpr
            ⟨hskip, hmark, Or.inl ⟨hdry, rfl⟩⟩, ?_⟩
          rw [bskyLoop, List.mem_filterMap]
          exact ⟨p, hmem, (processBskyPost_some_iff s pub p _).mpr
            ⟨hskip, hmark, Or.inl ⟨hdry, rfl⟩⟩⟩
        · rw [Bool.not_eq_true] at hdry
          refine ⟨_, (processBskyPost_some_iff s pub p _).mpr
            ⟨hskip, hmark, Or.inr ⟨hdry, mastoId, hok, rfl⟩⟩, ?_⟩
          rw [bskyLoop, List.mem_filterMap]
          exact ⟨p, hmem, (processBskyPost_some_iff s pub p _).mpr
            ⟨hskip, hmark, Or.inr ⟨hdry, mastoId, hok, rfl⟩⟩⟩
    · intro q hmem _ hskip hauth hpub
      have hmark : (s.ignoreReposts && q.reblog) = false := by
        rw [hir]; rfl
      rcases hpub with hdry | ⟨bskyUri, hok⟩
      · refine ⟨_, (processMastoPost_some_iff s pubM q _).mpr
          ⟨hskip, hmark, hauth, Or.inl ⟨hdry, rfl⟩⟩, ?_⟩
        rw [mastoLoop, List.mem_filterMap]
        exact ⟨q, hmem, (processMastoPost_some_iff s pubM q _).mpr
          ⟨hskip, hmark, hauth, Or.inl ⟨hdry, rfl⟩⟩⟩
      · by_cases hdry : s.dryRun = true
        · refine ⟨_, (processMastoPost_some_iff s pubM q _).mpr
            ⟨hskip, hmark, hauth, Or.inl ⟨hdry, rfl⟩⟩, ?_⟩
          rw [mastoLoop, List.mem_filterMap]
          exact ⟨q, hmem, (processMastoPost_some_iff s pubM q _).mpr
            ⟨hskip, hmark, hauth, Or.inl ⟨hdry, rfl⟩⟩⟩
        · rw [Bool.not_eq_true] at hdry
          refine ⟨_, (processMastoPost_some_iff s pubM q _).mpr
            ⟨hskip, hmark, hauth, Or.inr ⟨hdry, bskyUri, hok, rfl⟩⟩, ?_⟩
          rw [mastoLoop, List.mem_filterMap]
          exact ⟨q, hmem, (processMastoPost_some_iff s pubM q _).mpr
            ⟨hskip, hmark, hauth, Or.inr ⟨hdry, bskyUri, hok, rfl⟩⟩⟩
/-- Witness for C3 at the live fixture service (`ignoreReposts` true). -/
theorem repost_filter_witness :
    liveService.ignoreReposts = true ∧
    (∀ p : BskyFeedItem, p.reply = true →
      processBskyPost liveService okPub p = none) :=
  ⟨rfl, ((repost_filter_spec liveService okPub okPubM [b1] [m1]).1 rfl).1⟩
/-- Claim C4: a per-post publish failure is caught inside the loop — when
the fetch succeeded, `syncFromBluesky`/`syncFromMastodon` return `Except.ok`
whatever the publish outcomes are — and with three eligible posts of which
exactly the second fails to publish, the result is exactly the records of
the first and third posts. -/
theorem failure_containment_spec (s : SocialSyncService) (w : SyncWorld)
    (pub : BskyFeedItem → Except JsError String)
    (pubM : MastoStatus → Except JsError String) :
    (∀ feed, w.bskyFeed = Except.ok feed →
      syncFromBluesky s w = Except.ok (bskyLoop s w.publishMasto feed)) ∧
    (∀ timeline, w.mastoTimeline = Except.ok timeline →
      syncFromMastodon s w = Except.ok (mastoLoop s w.publishBsky timeline)) ∧
    (s.dryRun = false →
      ∀ p1 p2 p3 : BskyFeedItem, ∀ id1 id3 : String, ∀ e : JsError,
        (∀ p ∈ [p1, p2, p3], skipOld s.lastSync p.indexedAt = false ∧
          (s.ignoreReposts && p.reply) = false) →
        pub p1 = Except.ok id1 → pub p2 = Except.error e →
        pub p3 = Except.ok id3 →
        bskyLoop s pub [p1, p2, p3] =
          [{ source := Platform.bluesky, sourceId := p1.uri,
             targetId := id1, text := p1.text, simulated := false,
             timestamp := p1.indexedAt },
           { source := Platform.bluesky, sourceId := p3.uri,
             targetId := id3, text := p3.text, simulated := false,
             timestamp := p3.indexedAt }]) ∧
    (s.dryRun = false →
      ∀ q1 q2 q3 : MastoStatus, ∀ id1 id3 : String, ∀ e : JsError,
        (∀ q ∈ [q1, q2, q3], skipOld s.lastSync q.createdAt = false ∧
          (s.ignoreReposts && q.reblog) = false ∧
          toLowerJs q.username = toLowerJs s.config.mastodonUsername) →
        pubM q1 = Except.ok id1 → pubM q2 = Except.error e →
        pubM q3 = Except.ok id3 →
        mastoLoop s pubM [q1, q2, q3] =
          [{ source := Platform.mastodon, sourceId := q1.id,
             targetId := id1, text := cleanMastodonContent q1.content,
             simulated := false, timestamp := q1.createdAt },
           { source := Platform.mastodon, sourceId := q3.id,
             targetId := id3, text := cleanMastodonContent q3.content,
             simulated := false, timestamp := q3.createdAt }]) := by
  refine ⟨?_, ?_, ?_, ?_⟩
  · intro feed hfeed; rw [syncFromBluesky, hfeed]
  · intro timeline htl; rw [syncFromMastodon, htl]
  · intro hdry p1 p2 p3 id1 id3 e hfilters hok1 herr2 hok3
    have h1 := hfilters p1 (by simp)
    have h2 := hfilters p2 (by simp)
    have h3 := hfilters p3 (by simp)
    have e1 : processBskyPost s pub p1 = some
        { source := Platform.bluesky, sourceId := p1.uri, targetId := id1,
          text := p1.text, simulated := false, timestamp := p1.indexedAt } := by
      unfold processBskyPost; simp [h1.1, h1.2, hdry, hok1]
    have e2 : processBskyPost s pub p2 = none := by
      unfold processBskyPost; simp [h2.1, h2.2, hdry, herr2]
    have e3 : processBskyPost s pub p3 = some
        { source := Platform.bluesky, sourceId := p3.uri, targetId := id3,
          text := p3.text, simulated := false, timestamp := p3.indexedAt } := by
      unfold processBskyPost; simp [h3.1, h3.2, hdry, hok3]
    simp [bskyLoop, List.filterMap_cons, e1, e2, e3]
  · intro hdry q1 q2 q3 id1 id3 e hfilters hok1 herr2 hok3
    have h1 := hfilters q1 (by simp)
    have h2 := hfilters q2 (by simp)
    have h3 := hfilters q3 (by simp)
    have e1 : processMastoPost s pubM q1 = some
        { source := Platform.mastodon, sourceId := q1.id, targetId := id1,
          text := cleanMastodonContent q1.content, simulated := false,
          timestamp := q1.createdAt } := by
      unfold processMastoPost; simp [h1.1, h1.2.1, h1.2.2, hdry, hok1]
    have e2 : processMastoPost s pubM q2 = none := by
      unfold processMastoPost; simp [h2.1, h2.2.1, h2.2.2, hdry, herr2]
    have e3 : processMastoPost s pubM q3 = some
        { source := Platform.mastodon, sourceId := q3.id, targetId := id3,
          text := cleanMastodonContent q3.content, simulated := false,
          timestamp := q3.createdAt } := by
      unfold processMastoPost; simp [h3.1, h3.2.1, h3.2.2, hdry, hok3]
    simp [mastoLoop, List.filterMap_cons, e1, e2, e3]
/-- Witness for C4: the concrete three-post scenario with the second
publish failing. -/
theorem failure_containment_witness :
    liveService.dryRun = false ∧
    failSecond b1 = Except.ok "m-at://1" ∧
    failSecond b2 = Except.error ⟨"PublishError", none⟩ ∧
    failSecond b3 = Except.ok "m-at://3" ∧
    bskyLoop liveService failSecond [b1, b2, b3] =
      [{ source := Platform.bluesky, sourceId := "at://1",
         targetId := "m-at://1", text := "one", simulated := false,
         timestamp := 200 },
       { source := Platform.bluesky, sourceId := "at://3",
         targetId := "m-at://3", text := "three", simulated := false,
         timestamp := 400 }] :=
  ⟨rfl, rfl, rfl, rfl,
    (failure_containment_spec liveService liveWorld failSecond okPubM).2.2.1 rfl
      b1 b2 b3 "m-at://1" "m-at://3" ⟨"PublishError", none⟩ (by decide)
      rfl rfl rfl⟩
/-- Claim C5: `withRateLimit` returns the operation's value as soon as an
invocation succeeds; a rate-limited failure (HTTP 429 or a message
containing `rate limit`) waits `2^attempt * 1000` ms and retries, so
failing twice with 429 and then succeeding returns the value after waits of
1000 ms and 2000 ms; a non-rate-limit failure propagates immediately with
no wait; exhausting all three attempts fails with the distinct
`Failed after 3 retries` error (itself not a rate-limit error); and the
result depends only on the first `maxRetries` invocations. -/
theorem withRateLimit_spec :
    (∀ fn : Nat → Except JsError String, ∀ a : String,
      fn 0 = Except.ok a → withRateLimit fn 3 = (Except.ok a, [])) ∧
    (∀ fn : Nat → Except JsError String, ∀ e : JsError,
      fn 0 = Except.error e → isRateLimitError e = false →
      withRateLimit fn 3 = (Except.error e, [])) ∧
    (∀ fn : Nat → Except JsError String, ∀ e0 e1 : JsError, ∀ a : String,
      fn 0 = Except.error e0 → isRateLimitError e0 = true →
      fn 1 = Except.error e1 → isRateLimitError e1 = true →
      fn 2 = Except.ok a →
      withRateLimit fn 3 = (Except.ok a, [1000, 2000])) ∧
    (∀ fn : Nat → Except JsError String,
      (∀ i, i < 3 → ∃ e, fn i = Except.error e ∧ isRateLimitError e = true) →
      withRateLimit fn 3 =
        (Except.error ⟨"Failed after 3 retries", none⟩, [1000, 2000, 4000])) ∧
    (isRateLimitError ⟨"Failed after 3 retries", none⟩ = false) ∧
    (∀ fn g : Nat → Except JsError String,
      (∀ i, i < 3 → fn i = g i) → withRateLimit fn 3 = withRateLimit g 3) := by
  refine ⟨?_, ?_, ?_, ?_, ?_, ?_⟩
  · intro fn a h
    simp [withRateLimit, withRateLimitGo, h]
  · intro fn e h hrl
    simp [withRateLimit, withRateLimitGo, h, hrl]
  · intro fn e0 e1 a h0 hrl0 h1 hrl1 h2
    simp [withRateLimit, withRateLimitGo, h0, hrl0, h1, hrl1, h2]
  · intro fn h
    obtain ⟨e0, h0, hrl0⟩ := h 0 (by omega)
    obtain ⟨e1, h1, hrl1⟩ := h 1 (by omega)
    obtain ⟨e2, h2, hrl2⟩ := h 2 (by omega)
    simp [withRateLimit, withRateLimitGo, h0, hrl0, h1, hrl1, h2, hrl2]
    rfl
  · decide
  · intro fn g h
    simp [withRateLimit, withRateLimitGo, h 0 (by omega), h 1 (by omega),
      h 2 (by omega)]
/-- Witness for C5: the operation that is rate-limited twice and then
succeeds. -/
theorem withRateLimit_witness :
    fn429 0 = Except.error ⟨"rate limit exceeded", some 429⟩ ∧
    isRateLimitError ⟨"rate limit exceeded", some 429⟩ = true ∧
    withRateLimit fn429 3 = (Except.ok "ok-id", [1000, 2000]) :=
  ⟨rfl, by decide,
    withRateLimit_spec.2.2.1 fn429 ⟨"rate limit exceeded", some 429⟩
      ⟨"rate limit exceeded", some 429⟩ "ok-id" rfl (by decide) rfl
      (by decide) rfl⟩
/-- Counterexample to C6 as stated: `mCased`'s author `JerDog` differs
from the configured username `jerdog` as a string, yet the post is synced
(the source compares usernames after `toLowerCase()`). -/
theorem author_filter_exact_cex :
    ¬ mCased.username = dryService.config.mastodonUsername ∧
    mastoLoop dryService okPubM [mCased] =
      [{ source := Platform.mastodon, sourceId := "110",
         targetId := "DRY_RUN", text := "hello", simulated := true,
         timestamp := 600 }] := by
  constructor
  · decide
  · rfl
/-- Claim C6 as amended: a fetched timeline post whose author username
differs from the configured `mastodonUsername` after lowercasing both is
excluded from the output regardless of every other filter, and every output
record comes from a post whose lowercased author equals the lowercased
configured username. -/
theorem author_filter_ci_spec (s : SocialSyncService)
    (pubM : MastoStatus → Except JsError String)
    (timeline : List MastoStatus) :
    (∀ q : MastoStatus,
      ¬ toLowerJs q.username = toLowerJs s.config.mastodonUsername →
      processMastoPost s pubM q = none) ∧
    (∀ sp ∈ mastoLoop s pubM timeline, ∃ q, q ∈ timeline ∧
      processMastoPost s pubM q = some sp ∧
      toLowerJs q.username = toLowerJs s.config.mastodonUsername) := by
  constructor
  · intro q hq
    unfold processMastoPost
    cases h1 : skipOld s.lastSync q.createdAt <;>
      cases h2 : s.ignoreReposts && q.reblog <;>
        simp [h1, h2, hq]
  · intro sp hsp
    rw [mastoLoop, List.mem_filterMap] at hsp
    obtain ⟨q, hmem, hproc⟩ := hsp
    obtain ⟨-, -, hauth, -⟩ := (processMastoPost_some_iff s pubM q sp).mp hproc
    exact ⟨q, hmem, hproc, hauth⟩
/--  Witness for the amended C6: the post authored by `alice` is
excluded. -/
theorem author_filter_ci_witness :
    ¬ toLowerJs mOther.username =
      toLowerJs dryService.config.mastodonUsername ∧
    processMastoPost dryService okPubM mOther = none :=
  ⟨by decide,
    (author_filter_ci_spec dryService okPubM [mOther]).1 mOther (by decide)⟩
/-- Claim C7: the watermark is put to the store exactly when `sync()`
completed successfully and `dryRun` is false, and the value written is the
returned results' timestamp; when `sync()` throws, nothing is written and
the report has `success = false`. -/
theorem watermark_commit_spec (env : WorkerEnv) (stored : Option Timestamp)
    (w : SyncWorld) :
    (∀ r, sync (mkService (configOf env stored)) w = Except.ok r →
      (handleSync env stored w).1.success = true ∧
      (handleSync env stored w).1.timestamp = some r.timestamp ∧
      (handleSync env stored w).2 =
        (if (configOf env stored).dryRun then [] else [r.timestamp])) ∧
    (∀ e, sync (mkService (configOf env stored)) w = Except.error e →
      (handleSync env stored w).1.success = false ∧
      (handleSync env stored w).2 = []) ∧
    (¬ (handleSync env stored w).2 = [] ↔
      (handleSync env stored w).1.success = true ∧
      (configOf env stored).dryRun = false) := by
  cases hs : sync (mkService (configOf env stored)) w with
  | ok r =>
    refine ⟨?_, ?_, ?_⟩
    · intro r' hr'
      injection hr' with hr'
      subst hr'
      refine ⟨by simp [handleSync, hs], by simp [handleSync, hs], ?_⟩
      by_cases hd : (configOf env stored).dryRun = true <;>
        simp [handleSync, hs, hd]
    · intro e he
      cases he
    · by_cases hd : (configOf env stored).dryRun = true <;>
        simp [handleSync, hs, hd]
  | error e =>
    refine ⟨?_, ?_, ?_⟩
    · intro r' hr'
      cases hr'
    · intro e' he'
      simp [handleSync, hs]
    · simp [handleSync, hs]
/-- Witness for C7 at a concrete environment and world whose pass
succeeds. -/
theorem watermark_commit_witness :
    (handleSync liveEnv none liveWorld).1.success = true ∧
    (handleSync liveEnv none liveWorld).2 = [1000] := by
  refine ⟨?_, ?_⟩
  · exact ((watermark_commit_spec liveEnv none liveWorld).1 _ rfl).1
  · exact (((watermark_commit_spec liveEnv none liveWorld).1 _ rfl).2.2).trans
      rfl
/-- Counterexample to C8 as stated: the input `-5` is neither absent nor
non-numeric, yet the constructed `postsToSync` is `-5`, violating the
claimed invariant `postsToSync > 0`. -/
theorem postsToSync_positive_cex :
    (configOf negEnv none).postsToSync = -5 ∧
    ¬ 0 < (configOf negEnv none).postsToSync := by
  constructor
  · rfl
  · decide
/-- Claim C8 as amended: `postsToSync` defaults to 10 when the input is
absent, non-numeric (`parseInt` yields NaN), or parses to 0; any other
input yields exactly its parsed integer value, so the invariant
`postsToSync > 0` can only fail when the input parses to a negative
integer. -/
theorem postsToSync_default_spec (env : WorkerEnv)
    (stored : Option Timestamp) :
    (env.POSTS_TO_SYNC = none → (configOf env stored).postsToSync = 10) ∧
    (∀ v, env.POSTS_TO_SYNC = some v → parseIntJs v = none →
      (configOf env stored).postsToSync = 10) ∧
    (∀ v, env.POSTS_TO_SYNC = some v → parseIntJs v = some 0 →
      (configOf env stored).postsToSync = 10) ∧
    (∀ v n, env.POSTS_TO_SYNC = some v → parseIntJs v = some n →
      ¬ n = 0 → (configOf env stored).postsToSync = n) ∧
    (¬ 0 < (configOf env stored).postsToSync →
      ∃ v n, env.POSTS_TO_SYNC = some v ∧ parseIntJs v = some n ∧
        n < 0 ∧ (configOf env stored).postsToSync = n) := by
  have hc : (configOf env stored).postsToSync =
      postsToSyncOf env.POSTS_TO_SYNC := rfl
  refine ⟨?_, ?_, ?_, ?_, ?_⟩
  · intro h; rw [hc, h]; rfl
  · intro v hv hp; rw [hc, hv]; simp [postsToSyncOf, hp]
  · intro v hv hp; rw [hc, hv]; simp [postsToSyncOf, hp]
  · intro v n hv hp hn; rw [hc, hv]; simp [postsToSyncOf, hp, hn]
  · intro h
    rw [hc] at h
    cases hv : env.POSTS_TO_SYNC with
    | none => rw [hv] at h; simp [postsToSyncOf] at h
    | some v =>
      rw [hv] at h
      cases hp : parseIntJs v with
      | none => simp [postsToSyncOf, hp] at h
      | some n =>
        by_cases hn : n = 0
        · simp [postsToSyncOf, hp, hn] at h
        · simp only [postsToSyncOf, hp, if_neg hn] at h
          refine ⟨v, n, rfl, hp, by omega, ?_⟩
          rw [hc, hv]; simp [postsToSyncOf, hp, hn]
/-- Witness for the amended C8: a non-numeric input falls back to 10. -/
theorem postsToSync_default_witness :
    nanEnv.POSTS_TO_SYNC = some "abc" ∧ parseIntJs "abc" = none ∧
    (configOf nanEnv none).postsToSync = 10 :=
  ⟨rfl, by decide,
    (postsToSync_default_spec nanEnv none).2.1 "abc" rfl (by decide)⟩
/-- Counterexample to C9 as stated: the input contains no markup (no
`<` at all) but three consecutive newlines, and `cleanMastodonContent`
collapses them, so the result is not just the trimmed input. -/
theorem normalize_plain_cex :
    ("a\n\n\nb" : String).data.any (fun c => c = '<') = false ∧
    ¬ cleanMastodonContent "a\n\n\nb" = trimJs "a\n\n\nb" := by
  constructor
  · decide
  · decide
/-- Claim C9 as amended: on an input containing no markup (no `<`
character) and no run of three or more consecutive newlines,
`cleanMastodonContent` returns the input unchanged except for trimming the
leading and trailing whitespace. -/
theorem normalize_plain_spec (s : String)
    (h1 : s.data.any (fun c => c = '<') = false)
    (h2 : hasTripleNL s.data = false) :
    cleanMastodonContent s = trimJs s := by
  simp only [cleanMastodonContent, replaceScan, trimJs]
  rw [replaceScanF_id_of_no_lt tryMatchBr tryMatchBr_no_lt _ _ h1,
    replaceScanF_id_of_no_lt tryMatchP tryMatchP_no_lt _ _ h1,
    replaceScanF_id_of_no_lt tryMatchA tryMatchA_no_lt _ _ h1,
    replaceScanF_id_of_no_lt tryMatchTag tryMatchTag_no_lt _ _ h1,
    replaceScanF_id_of_no_triple _ _ h2]
/-- Witness for the amended C9 on a concrete tag-free string. -/
theorem normalize_plain_witness :
    (" hi\n\nthere " : String).data.any (fun c => c = '<') = false ∧
    hasTripleNL (" hi\n\nthere " : String).data = false ∧
    cleanMastodonContent " hi\n\nthere " = trimJs " hi\n\nthere " :=
  ⟨by decide, by decide,
    normalize_plain_spec " hi\n\nthere " (by decide) (by decide)⟩
/-- Claim C10: the author check of the Mastodon direction is
case-insensitive — under a dry run, a post passing the watermark and
repost filters is retained exactly when its lowercased author username
equals the lowercased configured `mastodonUsername`, so posts differing
from the configured name only in letter case are still synced. -/
theorem author_check_ci_spec (s : SocialSyncService)
    (pubM : MastoStatus → Except JsError String) (q : MastoStatus)
    (h1 : skipOld s.lastSync q.createdAt = false)
    (h2 : (s.ignoreReposts && q.reblog) = false)
    (h3 : s.dryRun = true) :
    ¬ processMastoPost s pubM q = none ↔
      toLowerJs q.username = toLowerJs s.config.mastodonUsername := by
  unfold processMastoPost
  by_cases h : toLowerJs q.username = toLowerJs s.config.mastodonUsername <;>
    simp [h1, h2, h3, h]
/-- Witness for C10: the post authored by `JERDOG` against the
configured `jerdog`. -/
theorem author_check_ci_witness :
    skipOld dryService.lastSync mUpper.createdAt = false ∧
    (dryService.ignoreReposts && mUpper.reblog) = false ∧
    dryService.dryRun = true ∧
    (¬ processMastoPost dryService okPubM mUpper = none ↔
      toLowerJs mUpper.username =
        toLowerJs dryService.config.mastodonUsername) :=
  ⟨rfl, rfl, rfl, author_check_ci_spec dryService okPubM mUpper rfl rfl rfl⟩
